import Mathlib

/-!
Verification of the candidate-reconciliation, validation, translation and
country-enrichment logic of the news-extraction pipeline
(`src/extraction_complete.py`, `src/ollama_client.py`,
`config/data_constants.py`), shallowly embedded in Lean.

Python strings are modelled as Lean `String` (a list of unicode scalar
values, matching Python's code-point view).  Python `str` helpers that the
embedded code uses (`strip`, `split`, `lower`, substring `in`, `find`,
slicing) are re-implemented below as `py*` functions with Python's
semantics on the inputs this code manipulates.
-/

namespace NewsExtractor

/-- Python whitespace for `str.strip()` / `str.split()` (ASCII part; the
embedded data contains no exotic unicode whitespace). -/
def pyWsChar (c : Char) : Bool :=
  c = ' ' || c = '\t' || c = '\n' || c = '\x0d' || c = '\x0b' || c = '\x0c'

/-- `str.strip()`o: drop whitespace at both ends. -/
def pyStripList (l : List Char) : List Char :=
  ((l.dropWhile pyWsChar).reverse.dropWhile pyWsChar).reverse

def pyStrip (s : String) : String := ⟨pyStripList s.data⟩

/-- Auxiliary for `str.split()` (no separator): split on runs of whitespace,
dropping empty pieces. `acc` holds the current word reversed. -/
def pySplitWsAux : List Char → List Char → List String
  | [], [] => []
  | [], acc => [⟨acc.reverse⟩]
  | c :: cs, acc =>
    if pyWsChar c then
      match acc with
      | [] => pySplitWsAux cs []
      | _ => ⟨acc.reverse⟩ :: pySplitWsAux cs []
    else pySplitWsAux cs (c :: acc)

/-- Python `str.split()` with no argument. -/
def pySplitWs (s : String) : List String := pySplitWsAux s.data []

/-- Auxiliary for `str.split(sep)` with a one-character separator:
empty pieces are kept, as in Python. -/
def pySplitOnAux (sep : Char) : List Char → List Char → List String
  | [], acc => [⟨acc.reverse⟩]
  | c :: cs, acc =>
    if c = sep then ⟨acc.reverse⟩ :: pySplitOnAux sep cs []
    else pySplitOnAux sep cs (c :: acc)

/-- Python `str.split(sep)` for a one-character separator. -/
def pySplitOn (sep : Char) (s : String) : List String := pySplitOnAux sep s.data []

/-- Python `str.lower()` restricted to the characters occurring in the
embedded program's data: ASCII letters plus the accented capital `É`
(the only non-ASCII cased capital appearing in the constants involved). -/
def pyCharToLower (c : Char) : Char :=
  if 'A' ≤ c ∧ c ≤ 'Z' then Char.ofNat (c.toNat + 32)
  else if c = 'É' then 'é'
  else c

def pyToLower (s : String) : String := ⟨s.data.map pyCharToLower⟩

/-- `listInfix n h` holds when `n` occurs contiguously inside `h`. -/
def listInfix (n : List Char) : List Char → Bool
  | [] => n.isPrefixOf []
  | h :: t => n.isPrefixOf (h :: t) || listInfix n t

/-- Python substring test `needle in hay`. -/
def pyContains (hay needle : String) : Bool := listInfix needle.data hay.data

/-- Auxiliary for `str.find`: first index (in code points) at which `n`
occurs in `h`, scanning from offset `i`. -/
def pyFindAux (n : List Char) : List Char → Nat → Option Nat
  | h, i =>
    if n.isPrefixOf h then some i
    else match h with
      | [] => none
      | _ :: t => pyFindAux n t (i + 1)

/-- Python `hay.find(needle)`, as an `Option` (`none` models `-1`). -/
def pyFind (hay needle : String) : Option Nat := pyFindAux needle.data hay.data 0

/-- Python slice `s[a:b]` for non-negative bounds (clamping as in Python). -/
def pySlice (s : String) (a b : Nat) : String := ⟨(s.data.take b).drop a⟩

/-- Python slice `s[:b]`. -/
def pyTake (s : String) (b : Nat) : String := ⟨s.data.take b⟩

/-- Python truthiness of an optional string (`None` and `""` are falsy). -/
def pyTruthy : Option String → Bool
  | none => false
  | some s => s ≠ ""

/-! ## The location-candidate reconciliation of `NewsExtractor.process_url`
(`src/extraction_complete.py:3580-3632`).

A gathered candidate is a pair `(method, value)`.  The Python code builds
`lieu_counts`, a dict keyed by `candidate_lieu.lower().strip()` whose keys
appear in order of first occurrence and whose value lists the supporting
methods in scan order; we realise the same mapping with `firstKeys` and
`methodsOf`. -/

/-- The fixed `priority_order` list of `process_url`. -/
def priorityOrder : List String :=
  ["url", "metadata", "debut_article", "regex_titre", "ollama_titre",
   "regex_contenu", "regex_contenu_full", "regex_contenu_milieu",
   "regex_contenu_fin", "ollama_contenu", "ollama_contenu_milieu",
   "ollama_contenu_fin"]

/-- Grouping key of a candidate value: `candidate_lieu.lower().strip()`. -/
def groupKey (v : String) : String := pyStrip (pyToLower v)

/-- Supporting methods of the equivalence class keyed `k`, in scan order
(the value list of `lieu_counts[k]`). -/
def methodsOf (c : List (String × String)) (k : String) : List String :=
  (c.filter (fun p => groupKey p.2 == k)).map Prod.fst

/-- Keys in order of first occurrence (Python dict insertion order). -/
def firstKeys : List String → List String
  | [] => []
  | k :: rest => k :: (firstKeys rest).filter (fun x => x ≠ k)

/-- The `lieu_counts` dict: keys in first-occurrence order, each with its
supporting methods in scan order. -/
def lieuCounts (c : List (String × String)) : List (String × List String) :=
  (firstKeys (c.map (fun p => groupKey p.2))).map (fun k => (k, methodsOf c k))

/-- The inner loop of the cross-validation branch: the first method of
`priority_order` contained in `ms`, and the value of the first candidate
carrying that method (`next(cand[1] for cand in lieu_candidates if cand[0]
== method_name)`). -/
def pickByPriority (c : List (String × String)) (ms : List String) : Option String :=
  match priorityOrder.find? (fun m => ms.contains m) with
  | none => none
  | some m => (c.find? (fun p => p.1 == m)).map Prod.snd

/-- One step of the `for lieu_lower, methods in lieu_counts.items()` loop:
a group yields a winner only when it has at least two supporting methods
and the picked value is truthy (`if lieu_valide: break`); in every other
case the loop moves on to the next group. -/
def groupStep (c : List (String × String)) (g : String × List String) : Option String :=
  if 2 ≤ g.2.length then
    match pickByPriority c g.2 with
    | some v => if v == "" then none else some v
    | none => none
  else none

/-- The cross-validation phase (`lieu_valide` computation): first group, in
dict order, producing a truthy pick. -/
def selectValidated (c : List (String × String)) : Option String :=
  (lieuCounts c).findSome? (groupStep c)

/-- The fallback phase (`if not lieu_valide`): first method of
`priority_order` present among the candidates, taking the first candidate
carrying it. -/
def selectByPriority (c : List (String × String)) : Option String :=
  match priorityOrder.find? (fun m => c.any (fun p => p.1 == m)) with
  | some m => (c.find? (fun p => p.1 == m)).map Prod.snd
  | none => none

/-- The complete reconciliation of the gathered `lieu_candidates` list
(`none` models "no candidate selected, keep the earlier value"). -/
def reconcileLieu (c : List (String × String)) : Option String :=
  match selectValidated c with
  | some v => some v
  | none => selectByPriority c

/-! ## `NewsExtractor.is_valid_location` (`src/extraction_complete.py:1495-1668`).

The regex patterns used there are of three shapes only: a character-class
search (`[A-Z]`, `[؀-ۿ]`), an alternation of literal words
between `\b` boundaries, and a start-anchored alternation of literal
words.  They are embedded by `wbSearch` (word-boundary search for a list
of literal alternatives; all alternatives start and end with word
characters) and by a `startsWith` test.  `\w` is approximated as ASCII
alphanumeric, underscore, or any non-ASCII character (the embedded data
only ever puts letters, digits, spaces and punctuation next to a match,
where this approximation agrees with Python's unicode `\w`). -/

def isWordChar (c : Char) : Bool := c.isAlphanum || c = '_' || 128 ≤ c.toNat

/-- Does some alternative `w` match at the head of `h`, with a word
boundary right after the match? -/
def wbAt (w h : List Char) : Bool :=
  w.isPrefixOf h &&
    (match h.drop w.length with
     | [] => true
     | c :: _ => !isWordChar c)

/-- Scan of `h`; `prevWord` says whether the previous character was a word
character (so that the position is not at a `\b`). -/
def wbScanAux (ws : List (List Char)) : Bool → List Char → Bool
  | prevWord, [] => !prevWord && ws.any (fun w => wbAt w [])
  | prevWord, c :: t =>
    (!prevWord && ws.any (fun w => wbAt w (c :: t))) || wbScanAux ws (isWordChar c) t

/-- `re.search(r'\b(w₁|w₂|…)\b', s)` for literal alternatives. -/
def wbSearch (ws : List String) (s : String) : Bool :=
  wbScanAux (ws.map String.data) false s.data

/-- `arabic_verbs_preps` (line 1513). -/
def arabicVerbsPreps : List String :=
  ["الفرصة", "لاعتمادها", "والالتزام", "بسبب", "من", "على", "في", "إلى", "مع"]

/-- The empty/placeholder markers rejected at line 1522. -/
def emptyMarkers : List String := ["...", "..", ".", "nan", "none", "null", "empty", ""]

/-- `nationalities_languages` (lines 1526-1533). -/
def nationalitiesLanguages : List String :=
  ["chinese", "russian", "english", "french", "spanish", "german", "italian", "portuguese",
   "japanese", "korean", "arabic", "turkish", "dutch", "polish", "greek", "swedish",
   "norwegian", "danish", "finnish", "czech", "hungarian", "romanian", "bulgarian",
   "chinois", "russe", "anglais", "français", "espagnol", "allemand", "italien", "portugais",
   "japonais", "coréen", "arabe", "turc", "néerlandais", "polonais", "grec", "suédois",
   "norvégien", "danois", "finlandais", "tchèque", "hongrois", "roumain", "bulgare"]

/-- `arabic_non_location_words` (lines 1539-1544). -/
def arabicNonLocationWords : List String :=
  ["كتاب", "كتابها", "صفحة", "صفحتها", "نشر", "نشرته", "عبر", "الذي", "التي",
   "منع", "استيراد", "يرصد", "إصابات", "توطن", "سلالات", "جديدة", "يقرر",
   "إطار", "خطة", "الهيئة", "العامة", "إقدام", "السلطات", "أبقار", "مستوردة",
   "الفرصة", "لاعتمادها", "والالتزام", "مخاوف", "إقدام", "نشرته", "صفحتها"]

/-- The descriptive-word sub-list used at line 1551. -/
def arabicDescriptiveWords : List String := ["كتابها", "صفحتها", "نشرته", "الذي", "التي"]

/-- `prepositions_fr` (lines 1555-1556). -/
def prepositionsFr : List String :=
  ["dans", "sur", "sous", "avec", "sans", "pour", "par", "vers", "depuis", "jusqu\x27",
   "après", "avant", "pendant", "chez", "entre", "parmi", "contre", "selon", "malgré"]

/-- `prepositions_en` (lines 1557-1558). -/
def prepositionsEn : List String :=
  ["in", "on", "at", "with", "for", "by", "to", "from", "into", "onto", "upon",
   "after", "before", "during", "through", "across", "against", "among", "between"]

/-- Union of the literal alternatives of the ten `\b(..|..)\b` patterns of
`excluded_patterns` (lines 1564-1587); searching the union is equivalent to
searching each pattern in turn, since any hit rejects. -/
def excludedPatternWords : List String :=
  ["agriculture", "environment", "department", "ministry", "ministère", "office", "bureau",
   "ministry of", "department of",
   "health", "santé", "food", "alimentation", "rural", "development", "développement",
   "affairs", "affaires",
   "services", "authority", "autorité", "agency", "agence", "organization", "organisation",
   "institute", "institut", "center", "centre", "laboratory", "laboratoire", "hospital",
   "hôpital",
   "school", "école", "university", "université", "college", "collège",
   "company", "société", "corporation", "corp", "inc", "ltd", "sarl",
   "جهاز", "وزارة", "مكتب", "مكتبة", "مستشفى", "مدرسة", "جامعة", "الشرطة", "الزراعية",
   "إطار", "خطة", "الهيئة", "العامة", "بسبب", "مخاوف", "من", "إقدام", "السلطات", "على",
   "أبقار", "مستوردة",
   "shots", "for", "after", "dies", "outbreak", "lifted", "due", "to", "confirmation",
   "case", "single", "urged", "following", "quarantine",
   "culture", "muhadjir", "effendy", "elvi", "martina", "muhammad", "ahmed", "ali",
   "hassan", "fatima",
   "رؤساء", "فروع", "موجه", "وحدات", "مدراء", "مسؤولين", "عاملين", "موظفين"]

/-- Alternatives of the start-anchored pattern `^(بسبب|…)` of
`excluded_patterns` (line 1580). -/
def arabicStartPatternWords : List String :=
  ["بسبب", "من", "على", "في", "إلى", "مع", "منع", "استيراد", "يرصد", "إصابات",
   "توطن", "سلالات", "جديدة", "يقرر"]

/-- `arabic_prepositions` (line 1595). -/
def arabicPrepositions : List String :=
  ["بسبب", "من", "على", "في", "إلى", "مع", "منع", "استيراد", "يرصد", "إصابات",
   "توطن", "سلالات", "جديدة", "يقرر", "إطار", "خطة", "الهيئة", "العامة", "إقدام",
   "السلطات", "أبقار", "مستوردة"]

/-- `arabic_job_titles` (line 1597). -/
def arabicJobTitles : List String :=
  ["رؤساء", "فروع", "موجه", "وحدات", "مدراء", "مسؤولين", "عاملين", "موظفين"]

/-- Geographic keywords consulted for the second comma part (line 1643). -/
def geoKeywords : List String :=
  ["county", "state", "province", "region", "city", "ville", "pays", "country"]

/-- `invalid_location_patterns` (lines 1655-1659). -/
def invalidLocationPatterns : List String :=
  ["you are", "helpful", "assistant", "ai", "expert", "geography", "géographie",
   "el país", "la región", "country name", "pays", "country", "région",
   "1.", "المدينة", "المنطقة", ":"]

/-- `pays_valides_courts` (line 1664). -/
def paysValidesCourts : List String :=
  ["usa", "uk", "fr", "eg", "ma", "dz", "tn", "kr", "jp", "cn", "in", "au", "ca",
   "mx", "br", "ar", "za"]

/-- Whether a comma part is a nationality/language (the per-part test of
lines 1630-1633 and 1645). -/
def partIsNationality (part : String) : Bool :=
  nationalitiesLanguages.contains (pyToLower part) ||
    nationalitiesLanguages.any (fun nat => 4 < nat.length && pyContains (pyToLower part) nat)

/-- Body of `is_valid_location` after the initial emptiness check;
`lieuLower = lieu.lower()`, `lieuStripped = lieu.strip()`,
`words = lieu_stripped.split()` are passed in already computed, mirroring
lines 1500-1505. -/
def isValidLocationCore (lieu lieuLower lieuStripped : String) (words : List String) : Bool :=
  if 6 < words.length then false
  else if 3 < words.length && arabicVerbsPreps.any (fun w => pyContains lieuStripped w) then
    false
  else if pyContains lieuLower "assistant" || pyContains lieuLower "helpful" ||
      pyContains lieuLower "extract" then false
  else if emptyMarkers.contains lieuStripped then false
  else if nationalitiesLanguages.contains lieuLower ||
      nationalitiesLanguages.any (fun nat => 4 < nat.length && pyContains lieuLower nat) then
    false
  else if arabicNonLocationWords.any (fun w => pyContains lieuStripped w) &&
      (2 < words.length ||
        (words.length == 2 && arabicDescriptiveWords.any (fun w => pyContains lieuStripped w))) then
    false
  else if (prepositionsFr ++ prepositionsEn).any
      (fun prep => (words.map pyToLower).contains prep) then false
  else if wbSearch excludedPatternWords lieuLower ||
      arabicStartPatternWords.any (fun w => w.data.isPrefixOf lieuLower.data) then false
  else if arabicPrepositions.any (fun w => pyContains lieuStripped w) &&
      3 < (pySplitWs lieuStripped).length then false
  else if arabicJobTitles.any (fun w => pyContains lieuStripped w) then false
  else if !(lieu.data.any (fun c => 'A' ≤ c && c ≤ 'Z')) &&
      !(lieu.data.any (fun c => 0x600 ≤ c.toNat && c.toNat ≤ 0x6FF)) then false
  else if 0 < (pySplitWs lieu).length &&
      ((pySplitWs lieu).filter (fun w => 3 < w.length)).isEmpty then false
  else if pyContains lieu "," &&
      (let parts := (pySplitOn ',' lieu).map pyStrip
       2 ≤ parts.length &&
         (parts.all partIsNationality ||
          (let second := parts.getD 1 ""
           let secondWords := pySplitWs second
           (2 ≤ secondWords.length && secondWords.length ≤ 3) &&
             !(geoKeywords.any (fun w => pyContains (pyToLower second) w))))) then false
  else if pyContains lieuLower "community" || pyContains lieuLower "communauté" then false
  else if invalidLocationPatterns.any (fun p => pyContains lieuLower p) then false
  else if paysValidesCourts.contains lieuLower ||
      ["USA", "UK", "France", "مصر", "المغرب"].contains lieuStripped then true
  else true

/-- `is_valid_location(lieu)`; the `None` argument case never arises at the
embedded call sites (the candidates are strings). -/
def isValidLocation (lieu : String) : Bool :=
  if lieu = "" || (pyStrip lieu).length < 2 then false
  else isValidLocationCore lieu (pyToLower lieu) (pyStrip lieu) (pySplitWs (pyStrip lieu))

/-- The gate of `process_url` that admits a URL-derived location candidate
(`src/extraction_complete.py:3482-3485`): the candidate is appended only
when truthy and valid. -/
def urlCandidateAdmitted (lieuFromUrl : String) : Bool :=
  lieuFromUrl ≠ "" && isValidLocation lieuFromUrl

/-! ## `LOCATION_TRANSLATION` (`config/data_constants.py:155-235`) and
`NewsExtractor.translate_location_to_french`
(`src/extraction_complete.py:1670-1703`).

The Python dict is embedded as an association list in insertion order,
which is also its iteration order — the partial-match fallback of the
translator takes the first key (in that order) occurring as a substring. -/

def locationTranslation : List (String × String) :=
  [("usa", "États-Unis"), ("united states", "États-Unis"), ("us", "États-Unis"),
   ("america", "États-Unis"),
   ("uk", "Royaume-Uni"), ("united kingdom", "Royaume-Uni"), ("britain", "Royaume-Uni"),
   ("south korea", "Corée du Sud"), ("korea", "Corée du Sud"), ("south korean", "Corée du Sud"),
   ("north korea", "Corée du Nord"),
   ("kazakhstan", "Kazakhstan"),
   ("afghanistan", "Afghanistan"),
   ("pakistan", "Pakistan"),
   ("zambia", "Zambie"),
   ("botswana", "Botswana"),
   ("philippines", "Philippines"),
   ("indonesia", "Indonésie"), ("indonésie", "Indonésie"),
   ("uganda", "Ouganda"),
   ("brazil", "Brésil"), ("brésil", "Brésil"),
   ("côte d\x27ivoire", "Côte d\x27Ivoire"), ("cote d\x27ivoire", "Côte d\x27Ivoire"),
   ("paraguay", "Paraguay"),
   ("south africa", "Afrique du Sud"),
   ("africa", "Afrique"), ("afrique", "Afrique"),
   ("australia", "Australie"),
   ("ireland", "Irlande"),
   ("belgium", "Belgique"), ("belgique", "Belgique"),
   ("netherlands", "Pays-Bas"),
   ("germany", "Allemagne"),
   ("spain", "Espagne"),
   ("italy", "Italie"),
   ("portugal", "Portugal"),
   ("greece", "Grèce"),
   ("poland", "Pologne"),
   ("czech republic", "République tchèque"),
   ("hungary", "Hongrie"),
   ("romania", "Roumanie"),
   ("bulgaria", "Bulgarie"),
   ("croatia", "Croatie"),
   ("serbia", "Serbie"),
   ("switzerland", "Suisse"),
   ("austria", "Autriche"),
   ("sweden", "Suède"),
   ("norway", "Norvège"),
   ("denmark", "Danemark"),
   ("finland", "Finlande"),
   ("china", "Chine"),
   ("japan", "Japon"),
   ("india", "Inde"),
   ("thailand", "Thaïlande"),
   ("vietnam", "Vietnam"),
   ("malaysia", "Malaisie"),
   ("singapore", "Singapour"),
   ("bangladesh", "Bangladesh"),
   ("saudi arabia", "Arabie saoudite"),
   ("uae", "Émirats arabes unis"),
   ("qatar", "Qatar"),
   ("kuwait", "Koweït"),
   ("jordan", "Jordanie"),
   ("lebanon", "Liban"),
   ("yemen", "Yémen"),
   ("oman", "Oman"),
   ("bahrain", "Bahreïn"),
   ("iraq", "Irak"),
   ("iran", "Iran"),
   ("syria", "Syrie"),
   ("turkey", "Turquie"),
   ("russia", "Russie"),
   ("ukraine", "Ukraine"),
   ("مصر", "Égypte"),
   ("المغرب", "Maroc"),
   ("تونس", "Tunisie"),
   ("الجزائر", "Algérie"),
   ("لبنان", "Liban"),
   ("الأردن", "Jordanie"),
   ("السعودية", "Arabie saoudite"),
   ("الإمارات", "Émirats arabes unis"),
   ("قطر", "Qatar"),
   ("الكويت", "Koweït"),
   ("العراق", "Irak"),
   ("إيران", "Iran"),
   ("سوريا", "Syrie"),
   ("ليبيا", "Libye"),
   ("فرنسا", "France")]

/-- `translate_location_to_french(lieu)`: exact lowercase lookup, then the
first key occurring as a substring of the lowercased input, else the
stripped input unchanged.  (The `None`/non-`str` cases of the Python
function do not arise for string inputs.) -/
def translateLocationToFrench (lieu : String) : String :=
  if lieu = "" || lieu = "nan" || pyStrip lieu = "" then lieu
  else
    let lieuClean := pyStrip lieu
    let lieuLower := pyToLower lieuClean
    match locationTranslation.find? (fun kv => kv.1 == lieuLower) with
    | some kv => kv.2
    | none =>
      match locationTranslation.find? (fun kv => pyContains lieuLower kv.1) with
      | some kv => kv.2
      | none => lieuClean

/-! ## `NewsExtractor.enrich_location_with_country`
(`src/extraction_complete.py:1705-1985`) with its helpers
`_check_country_context` (2062-2100) and `_check_usa_context` (2102-2132),
and the constants they consult (`config/data_constants.py`,
`config/config_ia.py`). -/

/-- `USE_OLLAMA` (`config/config_ia.py:3`). -/
def useOllama : Bool := true

/-- Association-list lookup with default: Python `dict.get(k, dflt)`. -/
def lookupD (d : List (String × String)) (k dflt : String) : String :=
  match d.find? (fun kv => kv.1 == k) with
  | some kv => kv.2
  | none => dflt

/-- `PAYS_CONNUS` (`config/data_constants.py:270-282`). -/
def paysConnus : List String :=
  ["France", "USA", "UK", "Kazakhstan", "South Korea", "Afghanistan", "Pakistan",
   "Zambia", "Botswana", "Philippines", "Indonesia", "Uganda", "Brazil",
   "Côte d\x27Ivoire", "Paraguay", "South Africa", "Australia", "Ireland",
   "Belgium", "Belgique", "Netherlands", "Switzerland", "Austria", "Sweden",
   "Norway", "Denmark", "Finland", "Poland", "Czech Republic", "Greece",
   "Portugal", "Romania", "Bulgaria", "Hungary", "Croatia", "Serbia",
   "Germany", "Spain", "Italy", "China", "Japan", "India", "Thailand",
   "Vietnam", "Malaysia", "Singapore", "Bangladesh", "Saudi Arabia",
   "UAE", "Qatar", "Kuwait", "Jordan", "Lebanon", "Yemen", "Oman", "Bahrain",
   "Iraq", "Iran", "Syria", "Turkey", "Russia", "Ukraine", "Egypt", "Morocco",
   "Algeria", "Tunisia", "Libya", "Afrique", "Africa"]

/-- `USA_STATE_CODES` (`config/data_constants.py:285-291`). -/
def usaStateCodes : List String :=
  ["NY", "NC", "GA", "VA", "CA", "TX", "FL", "IL", "PA", "OH", "MI", "SC",
   "WA", "OR", "AZ", "NV", "CO", "UT", "NM", "OK", "AR", "LA", "MS", "AL",
   "TN", "KY", "WV", "MD", "DE", "NJ", "CT", "RI", "MA", "VT", "NH", "ME",
   "AK", "HI", "ID", "MT", "WY", "ND", "SD", "NE", "KS", "MO", "IA", "MN",
   "WI", "IN"]

/-- `CITY_TO_COUNTRY` (`config/data_constants.py:238-267`).  The Python
dict literal repeats a few keys (`Kent`, `Danville`, `Limpopo`) with equal
values, so first-match lookup on this list agrees with the dict. -/
def cityToCountry : List (String × String) :=
  [("قنا", "مصر"), ("القاهرة", "مصر"), ("الإسكندرية", "مصر"), ("الجيزة", "مصر"),
   ("المنطقة الشرقية", "السعودية"),
   ("المغرب", "المغرب"), ("الرباط", "المغرب"), ("الدار البيضاء", "المغرب"), ("فاس", "المغرب"),
   ("تونس", "تونس"), ("الجزائر", "الجزائر"), ("لبنان", "لبنان"), ("الأردن", "الأردن"),
   ("السعودية", "السعودية"), ("الإمارات", "الإمارات"), ("قطر", "قطر"), ("الكويت", "الكويت"),
   ("فرنسا", "France"),
   ("Corse", "France"), ("Corrèze", "France"), ("Allier", "France"), ("Vendée", "France"),
   ("Indre-et-Loire", "France"), ("Paris", "France"), ("Lyon", "France"), ("Marseille", "France"),
   ("Kent", "UK"), ("Rockland County", "USA"), ("Rockland County, NY", "USA"), ("NY", "USA"),
   ("New York", "USA"),
   ("Orange County", "USA"), ("Orange, County", "USA"), ("Orange County, NC", "USA"),
   ("Chatham County", "USA"), ("Chatham, County", "USA"), ("Chatham County, GA", "USA"),
   ("Burnham Woods Community", "USA"), ("Danville", "USA"), ("Kentucky", "USA"),
   ("Keeneland Race Course", "USA"),
   ("Keen Lake", "USA"), ("Yellowstone National Park", "USA"), ("Yellowstone", "USA"),
   ("Coody Lake", "USA"),
   ("Phala-Phala", "South Africa"), ("Limpopo", "South Africa"),
   ("Belgium", "Belgium"), ("Belgique", "Belgium"),
   ("Karaganda", "Kazakhstan"), ("South Korea", "South Korea"), ("Korea", "South Korea"),
   ("Afghanistan", "Afghanistan"), ("Pakistan", "Pakistan"), ("Zambia", "Zambia"),
   ("Botswana", "Botswana"), ("Philippines", "Philippines"), ("Paraguay", "Paraguay"),
   ("Indonesia", "Indonesia"), ("Pinrang", "Indonesia"), ("East Nusa Tenggara", "Indonesia"),
   ("NTT", "Indonesia"),
   ("Uganda", "Uganda"), ("Ibanda", "Uganda"),
   ("Brazil", "Brazil"), ("Ceará", "Brazil"), ("Ceara", "Brazil"), ("Piaui", "Brazil"),
   ("Paraiba", "Brazil"), ("São Paulo", "Brazil"),
   ("Côte d\x27Ivoire", "Côte d\x27Ivoire"), ("Wyoming", "USA"), ("Polokwane", "South Africa"),
   ("North Carolina", "USA"), ("NC", "USA"), ("Savannah", "USA"), ("Georgia", "USA"),
   ("GA", "USA"),
   ("Virginia", "USA"), ("VA", "USA"), ("NSW", "Australia"), ("Australia", "Australia"),
   ("Ireland", "Ireland"), ("UK", "UK"), ("United Kingdom", "UK")]

/-- The country-tail whitelist of the "Ville, Pays" branch (line 1738). -/
def commaCountryTail : List String :=
  ["USA", "UK", "France", "مصر", "المغرب", "Kazakhstan", "South Korea", "Afghanistan",
   "Pakistan", "Zambia", "Botswana", "Philippines", "Indonesia", "Uganda", "Brazil",
   "Côte d\x27Ivoire", "Paraguay", "South Africa", "Australia", "Ireland"]

/-- The `pays_normalise` dict of the "Ville, Pays" branch (lines 1740-1761). -/
def paysNormaliseComma : List (String × String) :=
  [("NY", "USA"), ("NC", "USA"), ("GA", "USA"), ("VA", "USA"), ("CA", "USA"), ("TX", "USA"),
   ("FL", "USA"), ("IL", "USA"), ("PA", "USA"), ("OH", "USA"), ("MI", "USA"), ("SC", "USA"),
   ("US", "USA"), ("United States", "USA"),
   ("UK", "UK"), ("United Kingdom", "UK"),
   ("France", "France"),
   ("مصر", "مصر"), ("المغرب", "المغرب"),
   ("Kazakhstan", "Kazakhstan"),
   ("South Korea", "South Korea"), ("Korea", "South Korea"),
   ("Afghanistan", "Afghanistan"),
   ("Pakistan", "Pakistan"),
   ("Zambia", "Zambia"),
   ("Botswana", "Botswana"),
   ("Philippines", "Philippines"),
   ("Indonesia", "Indonesia"),
   ("Uganda", "Uganda"),
   ("Brazil", "Brazil"),
   ("Côte d\x27Ivoire", "Côte d\x27Ivoire"),
   ("Paraguay", "Paraguay"),
   ("South Africa", "South Africa"),
   ("Australia", "Australia"),
   ("Ireland", "Ireland")]

/-- `pays_prioritaires` (lines 1796-1798). -/
def paysPrioritaires : List String :=
  ["France", "UK", "USA", "South Korea", "Kazakhstan", "Afghanistan",
   "Pakistan", "Zambia", "Botswana", "Philippines", "مصر", "المغرب",
   "Indonesia", "Uganda", "Brazil", "Côte d\x27Ivoire", "Paraguay"]

/-- `pays_list` (lines 1777-1792), a Python set literal, embedded in
literal order.  CPython iterates a set of strings in an unspecified,
hash-dependent order; none of the theorems below depends on the order
chosen here (the fallback loop over this set is only reached when no
priority country matched, and each theorem pins the matched country). -/
def paysListFallback : List String :=
  ["France", "france", "français", "française",
   "United States", "USA", "US", "America", "American",
   "United Kingdom", "UK", "Britain", "British",
   "Kazakhstan", "kazakhstan",
   "South Korea", "Korea", "korean",
   "Afghanistan", "afghanistan",
   "Pakistan", "pakistan",
   "Zambia", "zambia",
   "Botswana", "botswana",
   "Philippines", "philippines",
   "مصر", "المغرب", "تونس", "الجزائر", "لبنان", "الأردن",
   "السعودية", "الإمارات", "قطر", "الكويت", "العراق", "سوريا"]

/-- `context_keywords` of `_check_country_context` (lines 2071-2075). -/
def contextKeywords : List String :=
  ["in", "at", "from", "to", "of", "en", "à", "de", "du", "dans", "au",
   "في", "من", "إلى", "ب", "في", "منطقة", "مدينة", "بلد", "دولة",
   "province", "region", "country", "state", "county", "district"]

/-- `variantes_pays` (lines 1845-1851). -/
def variantesPays : List (String × List String) :=
  [("brazil", ["brésil", "brazil"]),
   ("brésil", ["brazil", "brésil"]),
   ("usa", ["united states", "us", "america", "usa"]),
   ("uk", ["united kingdom", "britain", "uk"]),
   ("france", ["france", "français", "française"])]

/-- The country-normalisation dict of the same-country branch
(lines 1856-1877). -/
def memePaysNormalise : List (String × String) :=
  [("france", "France"), ("français", "France"), ("française", "France"),
   ("usa", "USA"), ("us", "USA"), ("united states", "USA"), ("america", "USA"),
   ("american", "USA"),
   ("uk", "UK"), ("united kingdom", "UK"), ("britain", "UK"), ("british", "UK"),
   ("brazil", "Brazil"), ("brésil", "Brazil"),
   ("kazakhstan", "Kazakhstan"),
   ("south korea", "South Korea"), ("korea", "South Korea"), ("korean", "South Korea"),
   ("afghanistan", "Afghanistan"),
   ("pakistan", "Pakistan"),
   ("zambia", "Zambia"),
   ("botswana", "Botswana"),
   ("philippines", "Philippines"),
   ("indonesia", "Indonesia"), ("indonésie", "Indonesia"),
   ("uganda", "Uganda"),
   ("côte d\x27ivoire", "Côte d\x27Ivoire"), ("cote d\x27ivoire", "Côte d\x27Ivoire"),
   ("paraguay", "Paraguay"),
   ("belgium", "Belgium"), ("belgique", "Belgium"),
   ("south africa", "South Africa"),
   ("australia", "Australia"),
   ("ireland", "Ireland"),
   ("مصر", "مصر"), ("المغرب", "المغرب"), ("تونس", "تونس"), ("الجزائر", "الجزائر")]

/-- The country-normalisation dict of the variant branch (lines 1882-1887);
the default of its `.get` is `lieu_pays_normalise`. -/
def variantNormalise : List (String × String) :=
  [("brazil", "Brazil"), ("brésil", "Brazil"),
   ("usa", "USA"), ("us", "USA"), ("united states", "USA"), ("america", "USA"),
   ("uk", "UK"), ("united kingdom", "UK"), ("britain", "UK"),
   ("france", "France"), ("français", "France"), ("française", "France")]

/-- The country-normalisation dict of the not-a-known-country branch
(lines 1896-1917). -/
def paysNormaliseMain : List (String × String) :=
  [("france", "France"), ("français", "France"), ("française", "France"),
   ("usa", "USA"), ("us", "USA"), ("united states", "USA"), ("america", "USA"),
   ("american", "USA"),
   ("uk", "UK"), ("united kingdom", "UK"), ("britain", "UK"), ("british", "UK"),
   ("kazakhstan", "Kazakhstan"),
   ("south korea", "South Korea"), ("korea", "South Korea"), ("korean", "South Korea"),
   ("afghanistan", "Afghanistan"),
   ("pakistan", "Pakistan"),
   ("zambia", "Zambia"),
   ("botswana", "Botswana"),
   ("philippines", "Philippines"),
   ("indonesia", "Indonesia"), ("indonésie", "Indonesia"),
   ("uganda", "Uganda"),
   ("brazil", "Brazil"), ("brésil", "Brazil"),
   ("côte d\x27ivoire", "Côte d\x27Ivoire"), ("cote d\x27ivoire", "Côte d\x27Ivoire"),
   ("paraguay", "Paraguay"),
   ("belgium", "Belgium"), ("belgique", "Belgium"),
   ("south africa", "South Africa"),
   ("australia", "Australia"),
   ("ireland", "Ireland"),
   ("مصر", "مصر"), ("المغرب", "المغرب"), ("تونس", "تونس"), ("الجزائر", "الجزائر")]

/-- `usa_indicators_in_lieu` (lines 1924-1930). -/
def usaIndicatorsInLieu : List String :=
  ["county", "ny", "ca", "tx", "fl", "nc", "sc", "ga", "va", "il", "pa", "oh", "mi",
   "new york", "california", "texas", "florida", "north carolina", "south carolina",
   "georgia", "virginia", "illinois", "pennsylvania", "ohio", "michigan",
   "rockland", "orange", "chatham", "savannah", "danville", "wyoming",
   "yellowstone", "coody lake", "national park"]

/-- `pays_connus_non_usa` (lines 1940-1944). -/
def paysConnusNonUsa : List String :=
  ["Paraguay", "Belgium", "Belgique", "France", "UK", "South Korea", "Kazakhstan",
   "Afghanistan", "Pakistan", "Zambia", "Botswana", "Philippines", "Indonesia",
   "Uganda", "Brazil", "Brésil", "Côte d\x27Ivoire", "South Africa", "Australia", "Ireland",
   "Africa", "Afrique", "مصر", "المغرب", "تونس", "الجزائر"]

/-- `usa_indicators` of `_check_usa_context` (lines 2111-2116). -/
def usaIndicators : List String :=
  ["united states", "usa", "us", "america", "american",
   "new york", "california", "texas", "florida", "illinois",
   "county, ny", "county, ca", "county, tx", "county, fl",
   "north carolina", "south carolina", "georgia", "virginia"]

/-- `usa_states` of `_check_usa_context` (line 2119). -/
def usaStatesShort : List String :=
  ["ny", "ca", "tx", "fl", "nc", "sc", "ga", "va", "il", "pa", "oh", "mi"]

/-- `_check_country_context(pays, texte)` (lines 2062-2100). -/
def checkCountryContext (pays texte : String) : Bool :=
  if texte = "" || pays = "" then false
  else
    let texteLower := pyToLower texte
    let paysLower := pyToLower pays
    match pyFind texteLower paysLower with
    | none => false
    | some pos =>
      let before := pySlice texteLower (pos - 50) pos
      let after := pySlice texteLower (pos + pays.length) (pos + pays.length + 50)
      let hasContext :=
        contextKeywords.any (fun k => pyContains before k || pyContains after k)
      if pyContains before "@" || pyContains after "@" then false
      else if pyContains before "http" || pyContains after "http" then false
      else if pyContains before "ministry" || pyContains after "ministry" then
        pyContains after ("in " ++ paysLower) || pyContains after ("of " ++ paysLower)
      else hasContext || 4 < pays.length

/-- `_check_usa_context(texte, lieu)` (lines 2102-2132). -/
def checkUsaContext (texte lieu : String) : Bool :=
  if texte = "" || lieu = "" then false
  else
    let texteLower := pyToLower texte
    let lieuLower := pyToLower lieu
    if usaStatesShort.any (fun st => pyContains lieuLower st) then true
    else
      usaIndicators.any (fun ind =>
        pyContains texteLower ind &&
          (match pyFind texteLower ind, pyFind texteLower lieuLower with
           | some ip, some lp => (if lp ≤ ip then ip - lp else lp - ip) < 200
           | _, _ => false))

/-- The per-country condition of the two country-search loops of
`enrich_location_with_country` (lines 1801-1809 and 1812-1820). -/
def paysMatchCond (texte lieuClean pays : String) : Bool :=
  (pyContains (pyToLower texte) (pyToLower pays) || pyContains texte pays) &&
    !(pyContains (pyToLower lieuClean) (pyToLower pays)) &&
    checkCountryContext pays texte

/-- The `pays_trouve` computation: priority countries first, then the
full list. -/
def findPaysTrouve (texte lieuClean : String) : Option String :=
  match paysPrioritaires.find? (paysMatchCond texte lieuClean) with
  | some p => some p
  | none => paysListFallback.find? (paysMatchCond texte lieuClean)

/-- The `texte_recherche` built from optional content and title
(lines 1769-1773); `None` and `""` are both falsy. -/
def buildTexteRecherche (contenu titre : Option String) : String :=
  (match contenu with
   | some c => if c ≠ "" then pyTake c 2000 else ""
   | none => "") ++
  (match titre with
   | some t => if t ≠ "" then " " ++ t else ""
   | none => "")

/-- `enrich_location_with_country(lieu, contenu, titre)`.  The call to
`convert_city_to_country_with_ollama` (an LLM round-trip) is abstracted as
`cityOracle`; `None` is `none`.  The unused `is_probably_city` flag of
lines 1971-1972 is omitted.  The redundant re-check of line 1976 (the
known-country test that the preceding branch has just refuted) is folded
away. -/
def enrichLocationWithCountry (cityOracle : String → Option String)
    (lieu : String) (contenu titre : Option String) : String :=
  if lieu = "" || lieu = "nan" || pyStrip lieu = "" then lieu
  else
    let lieuClean := pyStrip lieu
    let parts := (pySplitOn ',' lieuClean).map pyStrip
    let lastPart := pyStrip (parts.getLastD "")
    if pyContains lieuClean "," && 2 ≤ parts.length &&
        (lastPart.length ≤ 3 || commaCountryTail.contains lastPart) then
      if usaStateCodes.contains lastPart then "États-Unis"
      else translateLocationToFrench (lookupD paysNormaliseComma lastPart lastPart)
    else
      let texteRecherche := buildTexteRecherche contenu titre
      match (if texteRecherche ≠ "" then findPaysTrouve texteRecherche lieuClean else none) with
      | some paysTrouve =>
        match paysConnus.find? (fun pc =>
            pyToLower lieuClean == pyToLower pc || lieuClean == pc) with
        | some lieuPaysNormalise =>
          let paysTrouveLower := pyToLower paysTrouve
          let lieuPaysLower := pyToLower lieuPaysNormalise
          if paysTrouveLower == lieuPaysLower then
            translateLocationToFrench (lookupD memePaysNormalise paysTrouveLower paysTrouve)
          else if ((variantesPays.find? (fun kv => kv.1 == lieuPaysLower)).map Prod.snd).getD []
              |>.any (fun v => pyContains paysTrouveLower v) then
            translateLocationToFrench (lookupD variantNormalise paysTrouveLower lieuPaysNormalise)
          else if lieuPaysNormalise ≠ "" then lieuPaysNormalise
          else lieuClean
        | none =>
          let paysNormalise := lookupD paysNormaliseMain (pyToLower paysTrouve) paysTrouve
          if paysNormalise == "USA" then
            if usaIndicatorsInLieu.any (fun ind => pyContains (pyToLower lieuClean) ind) then
              translateLocationToFrench paysNormalise
            else if checkUsaContext texteRecherche lieuClean then
              translateLocationToFrench paysNormalise
            else
              -- lines 1939-1950: the known-country test selects between two
              -- identical `return translate_location_to_french(lieu_clean)`
              translateLocationToFrench lieuClean
          else translateLocationToFrench paysNormalise
      | none =>
        match cityToCountry.find? (fun kv => kv.1 == lieuClean) with
        | some kv => translateLocationToFrench kv.2
        | none =>
          if paysConnus.contains lieuClean || (paysConnus.map pyToLower).contains lieuClean then
            translateLocationToFrench lieuClean
          else if useOllama && lieuClean ≠ "" then
            match cityOracle lieuClean with
            | some paysOllama =>
              if paysOllama ≠ "" && pyStrip paysOllama ≠ "" then
                translateLocationToFrench (pyStrip paysOllama)
              else translateLocationToFrench lieuClean
            | none => translateLocationToFrench lieuClean
          else translateLocationToFrench lieuClean

/-! ## `NewsExtractor.normalize_location_name`
(`src/extraction_complete.py:2134-2270`).

The three run-replacing substitutions `re.sub(r'\s+', ' ', ·)`,
`re.sub(r'\n+', ', ', ·)` and `re.sub(r'[،,]+', ', ', ·)` replace each
maximal run of matching characters (left to right, non-overlapping, which
for a one-character-class `+` pattern is exactly a maximal run); they are
embedded by `subRuns`.  The anchored `re.sub(r'\s+region\s*$', '', ·)` and
the unanchored `re.sub(r'\s+county\s*,', ' County,', ·)` are embedded by
`stripRegionSuffix` and `subCountyComma`. -/

/-- Replace each maximal run of characters satisfying `p` by `r`. -/
def subRunsAux (p : Char → Bool) (r : List Char) : Bool → List Char → List Char
  | _, [] => []
  | prev, c :: t =>
    if p c then
      if prev then subRunsAux p r true t
      else r ++ subRunsAux p r true t
    else c :: subRunsAux p r false t

def subRuns (p : Char → Bool) (r : List Char) (s : String) : String :=
  ⟨subRunsAux p r false s.data⟩

/-- `re.sub(r'\s+', ' ', s)`. -/
def squashSpaces (s : String) : String := subRuns pyWsChar [' '] s

/-- `re.sub(r'\n+', ', ', s)`. -/
def subNewlines (s : String) : String := subRuns (fun c => c = '\n') [',', ' '] s

/-- `re.sub(r'[،,]+', ', ', s)`. -/
def subCommas (s : String) : String := subRuns (fun c => c = ',' || c = '،') [',', ' '] s

/-- `re.sub(r'\s+region\s*$', '', s, flags=re.IGNORECASE)`: remove a
trailing `region` word preceded by whitespace (with optional trailing
whitespace). -/
def stripRegionSuffix (s : String) : String :=
  let revNoWs := s.data.reverse.dropWhile pyWsChar
  if (revNoWs.take 6).map pyCharToLower == "noiger".data &&
      (match revNoWs.drop 6 with
       | c :: _ => pyWsChar c
       | [] => false) then
    ⟨((revNoWs.drop 6).dropWhile pyWsChar).reverse⟩
  else s

/-- Length of a match of `\s+county\s*,` at the head of `l` (`none` when
there is no match here). -/
def countyMatchLen (l : List Char) : Option Nat :=
  let ws := l.takeWhile pyWsChar
  if ws.length = 0 then none
  else
    let l1 := l.drop ws.length
    if (l1.take 6).map pyCharToLower == "county".data then
      let l2 := l1.drop 6
      let ws2 := l2.takeWhile pyWsChar
      match l2.drop ws2.length with
      | ',' :: _ => some (ws.length + 6 + ws2.length + 1)
      | _ => none
    else none

/-- `re.sub(r'\s+county\s*,', ' County,', s, flags=re.IGNORECASE)`:
left-to-right non-overlapping replacement.  The fuel argument, initialised
to the length of the list, dominates the number of characters still to
scan (every step consumes at least one character, since a match of
`\s+county\s*,` is never empty), so the fuel never runs out. -/
def subCountyFuel : Nat → List Char → List Char
  | 0, l => l
  | _ + 1, [] => []
  | fuel + 1, c :: t =>
    match countyMatchLen (c :: t) with
    | some n => " County,".data ++ subCountyFuel fuel ((c :: t).drop n)
    | none => c :: subCountyFuel fuel t

def subCountyComma (s : String) : String := ⟨subCountyFuel s.data.length s.data⟩

/-- First character of a word is an uppercase letter (`w[0].isupper()`;
the embedded data's only cased letters are ASCII plus `É`). -/
def firstCharUpper (w : String) : Bool :=
  match w.data with
  | [] => false
  | c :: _ => ('A' ≤ c && c ≤ 'Z') || c = 'É'

/-- `non_location_words` of lines 2211-2213. -/
def nonLocationWords : List String :=
  ["shots", "for", "after", "dies", "outbreak", "lifted", "due", "to",
   "confirmation", "case", "single", "urged", "following", "quarantine",
   "تفشي", "مرض", "الالتهاب", "العقدي", "بالأبقار"]

/-- The country-priority list of the comma branch (lines 2187-2189). -/
def normCountries : List String :=
  ["France", "UK", "USA", "Belgium", "Netherlands", "Germany", "Spain", "Italy",
   "China", "Japan", "South Korea", "India", "Brazil", "Argentina", "Canada",
   "مصر", "المغرب", "الجزائر", "تونس", "ليبيا", "سوريا", "العراق", "إيران"]

/-- The title-leak markers of line 2240-2241. -/
def titleLeakWords : List String :=
  ["shots", "for", "after", "dies", "outbreak", "lifted",
   "agriculture", "environment", "department"]

/-- The per-part collection of valid locations in the comma branch
(lines 2172-2182): a valid part is kept; an invalid multi-word part of at
most three words is re-extracted through the Pattern Matcher. -/
def validLocationsOf (reextract : String → String) (parts : List String) : List String :=
  parts.filterMap (fun part =>
    if isValidLocation part then some part
    else if pyContains part " " && (pySplitWs part).length ≤ 3 then
      let ex := reextract part
      if ex ≠ "" && isValidLocation ex then some ex else none
    else none)

/-- `normalize_location_name(lieu, recursion_depth, contenu, titre)`,
parameterised by the remaining recursion budget `fuel = 2 - recursion_depth`
(every recursive self-call of the Python function increments
`recursion_depth` by one, and depths `≥ 2` take the early-return branch of
lines 2156-2165, so the budget determines the behaviour exactly).
`reextract` abstracts `extract_location_with_regex(·, normalize=False)`
(`""` models a falsy result) and `cityOracle` abstracts the LLM
city-to-country conversion used inside the country enrichment. -/
def normLocAux (reextract : String → String)
    (cityOracle : String → Option String) (contenu titre : Option String) :
    Nat → String → String
  | 0, lieu =>
    -- recursion_depth ≥ 2
    if lieu = "" || lieu = "nan" || pyStrip lieu = "" then ""
    else if !isValidLocation lieu then ""
    else
      -- lines 2156-2165
      let l1 := subCountyComma (stripRegionSuffix (squashSpaces (pyStrip lieu)))
      if isValidLocation l1 then pyStrip l1 else ""
  | fuel + 1, lieu =>
    if lieu = "" || lieu = "nan" || pyStrip lieu = "" then ""
    else if !isValidLocation lieu then
      -- lines 2147-2153: re-extraction only at recursion_depth < 1
      if fuel = 1 then
        let ex := reextract lieu
        if ex ≠ "" && isValidLocation ex then
          normLocAux reextract cityOracle contenu titre fuel ex
        else ""
      else ""
    else
      let l0 := pyStrip lieu
      -- comma branch, lines 2170-2199
      let afterComma : Option String :=
        if pyContains l0 "," then
          let parts := (pySplitOn ',' l0).map pyStrip
          let valids := validLocationsOf reextract parts
          if valids.isEmpty then none
          else
            match valids.find? (fun loc =>
                normCountries.contains loc ||
                  normCountries.any (fun c => pyContains (pyToLower loc) (pyToLower c))) with
            | some loc => some loc
            | none => some (valids.getD 0 "")
        else some l0
      match afterComma with
      | none => ""
      | some l1 =>
        -- revalidation, lines 2202-2207
        if !isValidLocation l1 then
          let ex := reextract l1
          if ex ≠ "" && isValidLocation ex then
            normLocAux reextract cityOracle contenu titre fuel ex
          else ""
        else
          -- word-count cap, lines 2215-2231
          let words := pySplitWs l1
          let afterCap : Option String :=
            if 4 < words.length then
              let kws := words.filter (fun w =>
                (firstCharUpper w || 3 < w.length) &&
                  !(nonLocationWords.contains (pyToLower w)) && 2 < w.length)
              if kws.isEmpty then none
              else some (String.intercalate " " (kws.take 4))
            else some l1
          match afterCap with
          | none => ""
          | some l2 =>
            -- cleanup, lines 2234-2237
            let l3 := pyStrip (subCommas (subNewlines (squashSpaces l2)))
            -- title-leak check, lines 2240-2249
            if titleLeakWords.any (fun w => pyContains (pyToLower l3) w) then
              let ex := reextract l3
              if ex ≠ "" && isValidLocation ex then
                normLocAux reextract cityOracle contenu titre fuel ex
              else ""
            else
              -- format normalisation, lines 2254-2255
              let l4 := subCountyComma (stripRegionSuffix l3)
              -- final validation, lines 2258-2261
              if !isValidLocation l4 then ""
              else
                let l5 := pyStrip l4
                -- country enrichment, lines 2264-2265
                let l6 :=
                  if pyTruthy contenu || pyTruthy titre then
                    enrichLocationWithCountry cityOracle l5 contenu titre
                  else l5
                -- final translation, line 2268
                translateLocationToFrench l6

/-- `normalize_location_name` with the Python signature: `depth` is the
`recursion_depth` argument (callers pass `0`). -/
def normalizeLocationName (reextract : String → String)
    (cityOracle : String → Option String) (contenu titre : Option String)
    (depth : Nat) (lieu : String) : String :=
  normLocAux reextract cityOracle contenu titre (2 - depth) lieu

/-- A Pattern-Matcher stub returning no extraction (a falsy result).  The
concrete evaluations below only take paths on which the Python code never
calls `extract_location_with_regex`, so any stub gives the same value
there. -/
def reextractNone : String → String := fun _ => ""

/-- A city-to-country LLM oracle stub returning `None`; similarly only
used on paths that never consult the oracle. -/
def cityOracleNone : String → Option String := fun _ => none

/-- Position of `x` in `l` (length of `l` when absent); used to speak
about relative priority inside `priorityOrder`. -/
def idxIn : List String → String → Nat
  | [], _ => 0
  | a :: t, x => if a = x then 0 else idxIn t x + 1

end NewsExtractor

namespace OllamaClient

/-! ## `OllamaClient.call` (`src/ollama_client.py:42-98`).

The HTTP round-trip of one attempt is abstracted as an oracle mapping the
attempt index to its outcome: a successful reply carrying the text of
`response.json().get("response", "")`, a `requests.exceptions.ConnectionError`,
a `requests.exceptions.Timeout`, or any other exception (which includes
`raise_for_status` errors and JSON-decoding failures). -/

inductive AttemptOutcome where
  | success (response : String)
  | connectionError
  | timeoutError
  | otherError
deriving DecidableEq

/-- Observable behaviour of one `call`: the returned value (`none` models
`None`), the `timeout` argument passed to `requests.post` for each attempt
actually made (in order), and the number of `time.sleep(1)` calls. -/
structure CallResult where
  result : Option String
  attemptTimeouts : List Nat
  sleeps : Nat
deriving DecidableEq

/-- The retry loop of `call` (lines 61-98).  `remaining` is
`max_retries - attempt`, so the Python guard `attempt < max_retries - 1`
is `1 ≤ remaining - 1`, i.e. the inner `remaining` is positive. -/
def callLoop (outcomes : Nat → AttemptOutcome) (timeout : Nat) :
    Nat → Nat → CallResult
  | 0, _ => ⟨none, [], 0⟩
  | remaining + 1, attempt =>
    match outcomes attempt with
    | .success r => ⟨some (NewsExtractor.pyStrip r), [timeout], 0⟩
    | .connectionError =>
      if 0 < remaining then
        let rest := callLoop outcomes timeout remaining (attempt + 1)
        ⟨rest.result, timeout :: rest.attemptTimeouts, rest.sleeps + 1⟩
      else ⟨none, [timeout], 0⟩
    | .timeoutError =>
      if 0 < remaining then
        let rest := callLoop outcomes timeout remaining (attempt + 1)
        ⟨rest.result, timeout :: rest.attemptTimeouts, rest.sleeps + 1⟩
      else ⟨none, [timeout], 0⟩
    | .otherError => ⟨none, [timeout], 0⟩

/-- `call(prompt, max_retries=2, timeout=30)` with the defaults used by
the pipeline: the `USE_OLLAMA`/model gate (line 54) followed by the retry
loop. -/
def call (outcomes : Nat → AttemptOutcome) (model : Option String) : CallResult :=
  if !NewsExtractor.useOllama || !(NewsExtractor.pyTruthy model) then ⟨none, [], 0⟩
  else callLoop outcomes 30 2 0

end OllamaClient

namespace NewsExtractor

/-! ## General lemmas about the embedded list operations. -/

theorem find?_exists_of_mem {α} {p : α → Bool} {l : List α} {a : α}
    (ha : a ∈ l) (hpa : p a = true) : ∃ b, l.find? p = some b := by
  induction l with
  | nil => cases ha
  | cons x t ih =>
    by_cases hx : p x = true
    · exact ⟨x, by simp [List.find?_cons, hx]⟩
    · rcases List.mem_cons.mp ha with rfl | hat
      · exact absurd hpa hx
      · rcases ih hat with ⟨b, hb⟩
        exact ⟨b, by simp [List.find?_cons, hx, hb]⟩

theorem find?_idx_min {l : List String} {p : String → Bool} {a : String}
    (h : l.find? p = some a) {b : String} (hb : b ∈ l) (hpb : p b = true) :
    idxIn l a ≤ idxIn l b := by
  induction l with
  | nil => cases hb
  | cons x t ih =>
    by_cases hx : p x = true
    · have hax : a = x := by
        have : some x = some a := by simpa [List.find?_cons, hx] using h
        exact (Option.some.injEq _ _ ▸ this).symm
      subst hax
      simp [idxIn]
    · have h' : t.find? p = some a := by simpa [List.find?_cons, hx] using h
      have hbx : ¬ x = b := fun e => hx (e ▸ hpb)
      have hax : ¬ x = a := fun e => hx (e ▸ (List.find?_some h'))
      rcases List.mem_cons.mp hb with rfl | hbt
      · exact absurd rfl hbx
      · simp only [idxIn, if_neg hbx, if_neg hax]
        exact Nat.succ_le_succ (ih h' hbt)

theorem findSome?_congr {α β} {l : List α} {f g : α → Option β}
    (h : ∀ a ∈ l, f a = g a) : l.findSome? f = l.findSome? g := by
  induction l with
  | nil => rfl
  | cons x t ih =>
    simp only [List.findSome?_cons, h x (by simp)]
    cases g x with
    | some v => rfl
    | none => exact ih (fun a ha => h a (by simp [ha]))

theorem findSome?_eq_none_of_all {α β} {l : List α} {f : α → Option β}
    (h : ∀ a ∈ l, f a = none) : l.findSome? f = none := by
  induction l with
  | nil => rfl
  | cons x t ih =>
    simp only [List.findSome?_cons, h x (by simp)]
    exact ih (fun a ha => h a (by simp [ha]))

theorem findSome?_of_find?_some {α β} {l : List α} {p : α → Bool} {f : α → Option β}
    (hnone : ∀ a ∈ l, p a = false → f a = none)
    {a : α} (hfind : l.find? p = some a) {v : β} (hfa : f a = some v) :
    l.findSome? f = some v := by
  induction l with
  | nil => cases hfind
  | cons x t ih =>
    by_cases hx : p x = true
    · have hax : a = x := by
        have : some x = some a := by simpa [List.find?_cons, hx] using hfind
        exact (Option.some.injEq _ _ ▸ this).symm
      subst hax
      simp [List.findSome?_cons, hfa]
    · have h' : t.find? p = some a := by simpa [List.find?_cons, hx] using hfind
      have hfx : f x = none := hnone x (by simp) (by simpa using hx)
      simp only [List.findSome?_cons, hfx]
      exact ih (fun b hb hpb => hnone b (by simp [hb]) hpb) h'

theorem findSome?_perm {α β} {l₁ l₂ : List α} (hperm : l₁.Perm l₂) {f : α → Option β}
    (huniq : ∀ a ∈ l₁, ∀ b ∈ l₁, f a ≠ none → f b ≠ none → a = b) :
    l₁.findSome? f = l₂.findSome? f := by
  induction hperm with
  | nil => rfl
  | cons x h ih =>
    simp only [List.findSome?_cons]
    cases hfx : f x with
    | some v => rfl
    | none =>
      exact ih (fun a ha b hb => huniq a (by simp [ha]) b (by simp [hb]))
  | swap x y l =>
    simp only [List.findSome?_cons]
    cases hfx : f x with
    | some vx =>
      cases hfy : f y with
      | some vy =>
        have hxy : x = y :=
          huniq x (by simp) y (by simp) (by simp [hfx]) (by simp [hfy])
        subst hxy
        rw [hfx] at hfy
        have hv : vx = vy := Option.some.inj hfy
        subst hv
        rfl
      | none => rfl
    | none =>
      cases hfy : f y with
      | some vy => rfl
      | none => rfl
  | trans h1 _ ih1 ih2 =>
    refine (ih1 huniq).trans (ih2 ?_)
    intro a ha b hb
    exact huniq a (h1.mem_iff.mpr ha) b (h1.mem_iff.mpr hb)

theorem find?_congr {α} {l : List α} {p q : α → Bool}
    (h : ∀ a ∈ l, p a = q a) : l.find? p = l.find? q := by
  induction l with
  | nil => rfl
  | cons x t ih =>
    simp only [List.find?_cons, h x (by simp)]
    cases q x with
    | true => rfl
    | false => exact ih (fun a ha => h a (by simp [ha]))

theorem find?_perm_unique {α} {l₁ l₂ : List α} (hperm : l₁.Perm l₂) {p : α → Bool}
    (huniq : ∀ a ∈ l₁, ∀ b ∈ l₁, p a = true → p b = true → a = b) :
    l₁.find? p = l₂.find? p := by
  induction hperm with
  | nil => rfl
  | cons x h ih =>
    simp only [List.find?_cons]
    cases hpx : p x with
    | true => rfl
    | false =>
      exact ih (fun a ha b hb => huniq a (by simp [ha]) b (by simp [hb]))
  | swap x y l =>
    simp only [List.find?_cons]
    cases hpx : p x with
    | true =>
      cases hpy : p y with
      | true =>
        have hxy : x = y := huniq x (by simp) y (by simp) hpx hpy
        subst hxy
        rfl
      | false => rfl
    | false =>
      cases hpy : p y with
      | true => rfl
      | false => rfl
  | trans h1 _ ih1 ih2 =>
    refine (ih1 huniq).trans (ih2 ?_)
    intro a ha b hb
    exact huniq a (h1.mem_iff.mpr ha) b (h1.mem_iff.mpr hb)

theorem countP_le_one_unique {α} {l : List α} {p : α → Bool} (hnd : l.Nodup)
    (hone : l.countP p ≤ 1) {a b : α} (ha : a ∈ l) (hb : b ∈ l)
    (hpa : p a = true) (hpb : p b = true) : a = b := by
  induction l with
  | nil => cases ha
  | cons x t ih =>
    have hxt : x ∉ t := (List.nodup_cons.mp hnd).1
    have hndt : t.Nodup := (List.nodup_cons.mp hnd).2
    rcases List.mem_cons.mp ha with rfl | hat
    · rcases List.mem_cons.mp hb with rfl | hbt
      · rfl
      · exfalso
        have h0 : t.countP p = 0 := by
          have := List.countP_cons_of_pos (p := p) (l := t) hpa
          omega
        have := (List.countP_eq_zero.mp h0) b hbt
        exact this hpb
    · rcases List.mem_cons.mp hb with rfl | hbt
      · exfalso
        have h0 : t.countP p = 0 := by
          have := List.countP_cons_of_pos (p := p) (l := t) hpb
          omega
        have := (List.countP_eq_zero.mp h0) a hat
        exact this hpa
      · refine ih hndt ?_ hat hbt
        have := List.countP_cons (p := p) x t
        omega

theorem perm_any_eq {α} {l₁ l₂ : List α} (h : l₁.Perm l₂) (p : α → Bool) :
    l₁.any p = l₂.any p := by
  cases h1 : l₁.any p with
  | true =>
    rcases List.any_eq_true.mp h1 with ⟨a, ha, hpa⟩
    exact (List.any_eq_true.mpr ⟨a, h.mem_iff.mp ha, hpa⟩).symm
  | false =>
    cases h2 : l₂.any p with
    | false => rfl
    | true =>
      rcases List.any_eq_true.mp h2 with ⟨a, ha, hpa⟩
      have := List.any_eq_true.mpr ⟨a, h.mem_iff.mpr ha, hpa⟩
      rw [h1] at this
      cases this

/-! ## Lemmas about `firstKeys`, `methodsOf`, `lieuCounts`. -/

theorem mem_firstKeys {l : List String} {a : String} : a ∈ firstKeys l ↔ a ∈ l := by
  induction l with
  | nil => simp [firstKeys]
  | cons k t ih =>
    simp only [firstKeys, List.mem_cons, List.mem_filter]
    constructor
    · rintro (rfl | ⟨hmem, _⟩)
      · exact Or.inl rfl
      · exact Or.inr (ih.mp hmem)
    · rintro (rfl | hat)
      · exact Or.inl rfl
      · by_cases hak : a = k
        · exact Or.inl hak
        · exact Or.inr ⟨ih.mpr hat, by simpa using hak⟩

theorem nodup_firstKeys (l : List String) : (firstKeys l).Nodup := by
  induction l with
  | nil => simp [firstKeys]
  | cons k t ih =>
    simp only [firstKeys, List.nodup_cons]
    refine ⟨fun hmem => ?_, ih.filter _⟩
    have := (List.mem_filter.mp hmem).2
    simp at this

theorem lieuCounts_mem {c : List (String × String)} {k : String} {ms : List String}
    (h : (k, ms) ∈ lieuCounts c) : ms = methodsOf c k := by
  simp only [lieuCounts, List.mem_map] at h
  obtain ⟨k', _, heq⟩ := h
  have hk : k' = k := congrArg Prod.fst heq
  have hms : methodsOf c k' = ms := congrArg Prod.snd heq
  rw [← hms, hk]

theorem mem_of_mem_methodsOf {c : List (String × String)} {k m : String}
    (h : m ∈ methodsOf c k) : ∃ p, p ∈ c ∧ p.1 = m := by
  simp only [methodsOf, List.mem_map, List.mem_filter] at h
  obtain ⟨p, ⟨hp, _⟩, hm⟩ := h
  exact ⟨p, hp, hm⟩

theorem methodsOf_perm {c₁ c₂ : List (String × String)} (h : c₁.Perm c₂) (k : String) :
    (methodsOf c₁ k).Perm (methodsOf c₂ k) :=
  (h.filter _).map _

/-! ## Permutation invariance of the reconciliation phases. -/

theorem pickByPriority_perm {c₁ c₂ : List (String × String)} (h : c₁.Perm c₂)
    (hnodup : (c₁.map Prod.fst).Nodup) {ms₁ ms₂ : List String} (hms : ms₁.Perm ms₂) :
    pickByPriority c₁ ms₁ = pickByPriority c₂ ms₂ := by
  unfold pickByPriority
  have hpred : ∀ m ∈ priorityOrder, ms₁.contains m = ms₂.contains m := by
    intro m _
    show ms₁.elem m = ms₂.elem m
    by_cases hm : m ∈ ms₁
    · rw [List.elem_iff.mpr hm, List.elem_iff.mpr (hms.mem_iff.mp hm)]
    · have hm' : ¬ m ∈ ms₂ := fun h2 => hm (hms.mem_iff.mpr h2)
      simp [List.elem_iff, hm, hm']
  rw [find?_congr hpred]
  have hbody : ∀ m : String,
      (c₁.find? (fun p => p.1 == m)).map Prod.snd =
        (c₂.find? (fun p => p.1 == m)).map Prod.snd := by
    intro m
    have huniq : ∀ p ∈ c₁, ∀ q ∈ c₁, (p.1 == m) = true → (q.1 == m) = true → p = q := by
      intro p hp q hq hpm hqm
      exact List.inj_on_of_nodup_map hnodup hp hq
        ((beq_iff_eq.mp hpm).trans (beq_iff_eq.mp hqm).symm)
    rw [find?_perm_unique h huniq]
  cases priorityOrder.find? (fun m => ms₂.contains m) with
  | none => rfl
  | some m => exact hbody m

theorem groupStep_key_perm {c₁ c₂ : List (String × String)} (h : c₁.Perm c₂)
    (hnodup : (c₁.map Prod.fst).Nodup) (k : String) :
    groupStep c₁ (k, methodsOf c₁ k) = groupStep c₂ (k, methodsOf c₂ k) := by
  have hlen : (methodsOf c₁ k).length = (methodsOf c₂ k).length :=
    (methodsOf_perm h k).length_eq
  by_cases h2 : 2 ≤ (methodsOf c₂ k).length
  · simp only [groupStep, hlen, if_pos h2,
      pickByPriority_perm h hnodup (methodsOf_perm h k)]
  · simp only [groupStep, hlen, if_neg h2]

theorem selectValidated_perm {c₁ c₂ : List (String × String)} (h : c₁.Perm c₂)
    (hnodup : (c₁.map Prod.fst).Nodup)
    (hone : (lieuCounts c₁).countP (fun g => 2 ≤ g.2.length) ≤ 1) :
    selectValidated c₁ = selectValidated c₂ := by
  unfold selectValidated lieuCounts
  rw [List.findSome?_map, List.findSome?_map]
  have hfun : ∀ k, groupStep c₁ (k, methodsOf c₁ k) = groupStep c₂ (k, methodsOf c₂ k) :=
    groupStep_key_perm h hnodup
  have hcongr :
      (firstKeys (c₂.map fun p => groupKey p.2)).findSome?
          (groupStep c₂ ∘ fun k => (k, methodsOf c₂ k)) =
        (firstKeys (c₂.map fun p => groupKey p.2)).findSome?
          (groupStep c₁ ∘ fun k => (k, methodsOf c₁ k)) :=
    findSome?_congr (fun k _ => (hfun k).symm)
  rw [hcongr]
  apply findSome?_perm
  · refine (List.perm_ext_iff_of_nodup (nodup_firstKeys _) (nodup_firstKeys _)).mpr ?_
    intro a
    rw [mem_firstKeys, mem_firstKeys]
    exact (h.map _).mem_iff
  · intro a ha b hb hfa hfb
    have hstep : ∀ x : String, groupStep c₁ (x, methodsOf c₁ x) ≠ none →
        (2 ≤ (methodsOf c₁ x).length) := by
      intro x hx
      by_contra hlt
      exact hx (by simp [groupStep, hlt])
    have h2a := hstep a hfa
    have h2b := hstep b hfb
    have hone' :
        (firstKeys (c₁.map fun p => groupKey p.2)).countP
          (fun k => 2 ≤ (methodsOf c₁ k).length) ≤ 1 := by
      have := hone
      unfold lieuCounts at this
      rwa [List.countP_map] at this
    exact countP_le_one_unique (nodup_firstKeys _) hone' ha hb
      (by simpa using h2a) (by simpa using h2b)

theorem selectByPriority_perm {c₁ c₂ : List (String × String)} (h : c₁.Perm c₂)
    (hnodup : (c₁.map Prod.fst).Nodup) :
    selectByPriority c₁ = selectByPriority c₂ := by
  unfold selectByPriority
  have hpred : ∀ m ∈ priorityOrder,
      (c₁.any fun p => p.1 == m) = (c₂.any fun p => p.1 == m) := by
    intro m _
    exact perm_any_eq h _
  rw [find?_congr hpred]
  have hbody : ∀ m : String,
      (c₁.find? (fun p => p.1 == m)).map Prod.snd =
        (c₂.find? (fun p => p.1 == m)).map Prod.snd := by
    intro m
    have huniq : ∀ p ∈ c₁, ∀ q ∈ c₁, (p.1 == m) = true → (q.1 == m) = true → p = q := by
      intro p hp q hq hpm hqm
      exact List.inj_on_of_nodup_map hnodup hp hq
        ((beq_iff_eq.mp hpm).trans (beq_iff_eq.mp hqm).symm)
    rw [find?_perm_unique h huniq]
  cases priorityOrder.find? (fun m => c₂.any fun p => p.1 == m) with
  | none => rfl
  | some m => exact hbody m

/-- Reconciliation is invariant under permutation of the candidate list
when methods are pairwise distinct and at most one equivalence class is
corroborated (has two or more supporting methods). -/
theorem reconcileLieu_perm_aux {c₁ c₂ : List (String × String)} (h : c₁.Perm c₂)
    (hnodup : (c₁.map Prod.fst).Nodup)
    (hone : (lieuCounts c₁).countP (fun g => 2 ≤ g.2.length) ≤ 1) :
    reconcileLieu c₁ = reconcileLieu c₂ := by
  unfold reconcileLieu
  rw [selectValidated_perm h hnodup hone, selectByPriority_perm h hnodup]

/-- The cross-validation phase selects the first corroborated class in
dict order, taking the value of its highest-priority supporting method. -/
theorem reconcile_firstgroup_aux {c : List (String × String)}
    (hmeth : ∀ p ∈ c, p.1 ∈ priorityOrder)
    (hval : ∀ p ∈ c, p.2 ≠ "")
    {k : String} {ms : List String}
    (hfind : (lieuCounts c).find? (fun g => 2 ≤ g.2.length) = some (k, ms)) :
    ∃ q, q ∈ c ∧ reconcileLieu c = some q.2 ∧ q.1 ∈ ms ∧
      ∀ m ∈ ms, idxIn priorityOrder q.1 ≤ idxIn priorityOrder m := by
  have hmem : (k, ms) ∈ lieuCounts c := List.mem_of_find?_eq_some hfind
  have hms : ms = methodsOf c k := lieuCounts_mem hmem
  have h2 : 2 ≤ ms.length := by
    have := List.find?_some hfind
    simpa using this
  -- the group is non-empty, so some method of `priorityOrder` supports it
  have hmsne : ms ≠ [] := by
    intro h0
    rw [h0] at h2
    simp at h2
  obtain ⟨m₀, hm₀⟩ := List.exists_mem_of_ne_nil ms hmsne
  obtain ⟨p₀, hp₀c, hp₀m⟩ := mem_of_mem_methodsOf (hms ▸ hm₀)
  have hm₀po : m₀ ∈ priorityOrder := hp₀m ▸ hmeth p₀ hp₀c
  -- the priority scan inside the group succeeds
  obtain ⟨mstar, hmstar⟩ :=
    find?_exists_of_mem (p := fun m => ms.contains m) hm₀po (by simpa using hm₀)
  have hmstar_in : mstar ∈ ms := by
    have := List.find?_some hmstar
    simpa using this
  obtain ⟨q, hqc, hqm⟩ := mem_of_mem_methodsOf (hms ▸ hmstar_in)
  obtain ⟨q', hq'⟩ :=
    find?_exists_of_mem (p := fun p => p.1 == mstar) hqc (by simpa using hqm)
  have hq'c : q' ∈ c := List.mem_of_find?_eq_some hq'
  have hq'm : q'.1 = mstar := by
    have := List.find?_some hq'
    simpa using this
  have hpick : pickByPriority c ms = some q'.2 := by
    unfold pickByPriority
    rw [hmstar]
    show (c.find? (fun p => p.1 == mstar)).map Prod.snd = some q'.2
    rw [hq']
    rfl
  have hstep : groupStep c (k, ms) = some q'.2 := by
    unfold groupStep
    rw [if_pos h2, hpick]
    simp [hval q' hq'c]
  have hsel : selectValidated c = some q'.2 := by
    unfold selectValidated
    refine findSome?_of_find?_some ?_ hfind hstep
    intro g _ hg
    have : ¬ 2 ≤ g.2.length := by simpa using hg
    simp [groupStep, this]
  refine ⟨q', hq'c, ?_, hq'm ▸ hmstar_in, ?_⟩
  · unfold reconcileLieu
    rw [hsel]
  · intro m hm
    have hmpo : m ∈ priorityOrder := by
      obtain ⟨pm, hpmc, hpmm⟩ := mem_of_mem_methodsOf (hms ▸ hm)
      exact hpmm ▸ hmeth pm hpmc
    rw [hq'm]
    exact find?_idx_min hmstar hmpo (by simpa using hm)

/-! ## Claims about the reconciliation. -/

/-- C1 (counterexample): with candidates
`url:"A", metadata:"A", regex_titre:"B", ollama_titre:"B", regex_contenu:"B"`
the class of `"B"` has three supporting methods and the class of `"A"` only
two, yet the reconciliation of `process_url` selects `"A"`: it takes the
first class in first-appearance order with at least two supporting
methods, not the class with the most supporting methods. -/
theorem reconcile_most_supported_cex :
    reconcileLieu
        [("url", "A"), ("metadata", "A"), ("regex_titre", "B"),
         ("ollama_titre", "B"), ("regex_contenu", "B")] = some "A" ∧
      (lieuCounts
          [("url", "A"), ("metadata", "A"), ("regex_titre", "B"),
           ("ollama_titre", "B"), ("regex_contenu", "B")]).map
          (fun g => (g.1, g.2.length)) = [("a", 2), ("b", 3)] :=
  ⟨rfl, rfl⟩

/-- C1 (amended): when some equivalence class of the gathered candidates
has at least two supporting methods, the reconciliation selects the value
of the *first such class in order of first appearance* (not the
most-supported class), taken from the candidate whose method has the
highest priority among that class's supporting methods. -/
theorem reconcile_first_corroborated (c : List (String × String))
    (hmeth : ∀ p ∈ c, p.1 ∈ priorityOrder)
    (hval : ∀ p ∈ c, p.2 ≠ "")
    (k : String) (ms : List String)
    (hfind : (lieuCounts c).find? (fun g => 2 ≤ g.2.length) = some (k, ms)) :
    ∃ q, q ∈ c ∧ reconcileLieu c = some q.2 ∧ q.1 ∈ ms ∧
      ∀ m ∈ ms, idxIn priorityOrder q.1 ≤ idxIn priorityOrder m :=
  reconcile_firstgroup_aux hmeth hval hfind

/-- Witness for the amended C1 at a concrete corroborated list. -/
theorem reconcile_first_corroborated_witness :
    ∃ q, q ∈ [("url", "A"), ("metadata", "A")] ∧
      reconcileLieu [("url", "A"), ("metadata", "A")] = some q.2 ∧
      q.1 ∈ ["url", "metadata"] ∧
      ∀ m ∈ ["url", "metadata"], idxIn priorityOrder q.1 ≤ idxIn priorityOrder m :=
  reconcile_first_corroborated [("url", "A"), ("metadata", "A")]
    (by decide) (by decide) "a" ["url", "metadata"] (by decide)

/-- C2 (counterexample): the reconciled value is *not* invariant under
permutation of the gathered candidates: with two corroborated classes the
first-appearing one wins, so the two orders below give different values. -/
theorem reconcile_order_dependent_cex :
    ([("regex_titre", "B"), ("ollama_titre", "B"), ("url", "A"), ("metadata", "A")] :
        List (String × String)).Perm
        [("url", "A"), ("metadata", "A"), ("regex_titre", "B"), ("ollama_titre", "B")] ∧
      reconcileLieu
          [("url", "A"), ("metadata", "A"), ("regex_titre", "B"),
           ("ollama_titre", "B")] = some "A" ∧
      reconcileLieu
          [("regex_titre", "B"), ("ollama_titre", "B"), ("url", "A"),
           ("metadata", "A")] = some "B" :=
  ⟨by decide, rfl, rfl⟩

/-- C2 (amended): the reconciled value is invariant under permutation of
the candidate list provided the methods are pairwise distinct (as in every
list gathered by `process_url`) and *at most one* equivalence class is
corroborated; with two or more corroborated classes the outcome depends on
the order of first appearance. -/
theorem reconcile_order_independent (c₁ c₂ : List (String × String))
    (hperm : c₁.Perm c₂) (hnodup : (c₁.map Prod.fst).Nodup)
    (hone : (lieuCounts c₁).countP (fun g => 2 ≤ g.2.length) ≤ 1) :
    reconcileLieu c₁ = reconcileLieu c₂ :=
  reconcileLieu_perm_aux hperm hnodup hone

/-- Witness for the amended C2 at a concrete pair of permuted lists. -/
theorem reconcile_order_independent_witness :
    reconcileLieu [("url", "A"), ("regex_titre", "B"), ("ollama_titre", "B")] =
      reconcileLieu [("ollama_titre", "B"), ("url", "A"), ("regex_titre", "B")] :=
  reconcile_order_independent
    [("url", "A"), ("regex_titre", "B"), ("ollama_titre", "B")]
    [("ollama_titre", "B"), ("url", "A"), ("regex_titre", "B")]
    (by decide) (by decide) (by decide)

/-- C4: with two candidates `"Kent"` and one candidate `"Kazakhstan"` from
three pairwise-distinct methods, the reconciliation selects `"Kent"`
(2 supporting methods) over `"Kazakhstan"` (1 supporting method), whatever
the arrival order of the three candidates and even when Kazakhstan's
method outranks both of Kent's. -/
theorem reconcile_corroboration_kent (m₁ m₂ m₃ : String) (l : List (String × String))
    (h1 : m₁ ∈ priorityOrder) (h2 : m₂ ∈ priorityOrder) (h3 : m₃ ∈ priorityOrder)
    (d12 : m₁ ≠ m₂) (d13 : m₁ ≠ m₃) (d23 : m₂ ≠ m₃)
    (hperm : l.Perm [(m₁, "Kent"), (m₂, "Kent"), (m₃, "Kazakhstan")]) :
    reconcileLieu l = some "Kent" := by
  have hcounts : lieuCounts [(m₁, "Kent"), (m₂, "Kent"), (m₃, "Kazakhstan")] =
      [("kent", [m₁, m₂]), ("kazakhstan", [m₃])] := rfl
  have hnodup :
      (([(m₁, "Kent"), (m₂, "Kent"), (m₃, "Kazakhstan")] :
          List (String × String)).map Prod.fst).Nodup := by
    simp [d12, d13, d23]
  have hone :
      (lieuCounts [(m₁, "Kent"), (m₂, "Kent"), (m₃, "Kazakhstan")]).countP
          (fun g => 2 ≤ g.2.length) ≤ 1 := by
    rw [hcounts]
    exact Nat.le_of_eq rfl
  have htrans := reconcileLieu_perm_aux hperm.symm hnodup hone
  rw [← htrans]
  have hfind :
      (lieuCounts [(m₁, "Kent"), (m₂, "Kent"), (m₃, "Kazakhstan")]).find?
          (fun g => 2 ≤ g.2.length) = some ("kent", [m₁, m₂]) := by
    rw [hcounts]
    rfl
  have hmeth : ∀ p ∈ [(m₁, "Kent"), (m₂, "Kent"), (m₃, "Kazakhstan")],
      p.1 ∈ priorityOrder := by
    intro p hp
    rcases List.mem_cons.mp hp with rfl | hp
    · exact h1
    rcases List.mem_cons.mp hp with rfl | hp
    · exact h2
    rcases List.mem_cons.mp hp with rfl | hp
    · exact h3
    · cases hp
  have hval : ∀ p ∈ [(m₁, "Kent"), (m₂, "Kent"), (m₃, "Kazakhstan")], p.2 ≠ "" := by
    intro p hp
    rcases List.mem_cons.mp hp with rfl | hp
    · simp
    rcases List.mem_cons.mp hp with rfl | hp
    · simp
    rcases List.mem_cons.mp hp with rfl | hp
    · simp
    · cases hp
  obtain ⟨q, hqc, hrec, hqin, _⟩ := reconcile_firstgroup_aux hmeth hval hfind
  rcases List.mem_cons.mp hqc with rfl | hqc'
  · exact hrec
  rcases List.mem_cons.mp hqc' with rfl | hqc''
  · exact hrec
  rcases List.mem_cons.mp hqc'' with rfl | hqc3
  · exfalso
    rcases List.mem_cons.mp hqin with hq1 | hq2
    · exact d13 hq1.symm
    · rcases List.mem_cons.mp hq2 with hq2' | hq3
      · exact d23 hq2'.symm
      · cases hq3
  · cases hqc3

/-- Witness for C4: Kazakhstan arriving first from the highest-priority
method (`url`) still loses to the corroborated `Kent`. -/
theorem reconcile_corroboration_kent_witness :
    reconcileLieu [("url", "Kazakhstan"), ("regex_titre", "Kent"),
      ("ollama_titre", "Kent")] = some "Kent" :=
  reconcile_corroboration_kent "regex_titre" "ollama_titre" "url"
    [("url", "Kazakhstan"), ("regex_titre", "Kent"), ("ollama_titre", "Kent")]
    (by decide) (by decide) (by decide) (by decide) (by decide) (by decide) (by decide)

/-- C5: when every equivalence class has a single supporting method, the
reconciliation falls back to static priority and selects the value of the
candidate whose method comes earliest in `priority_order`. -/
theorem reconcile_priority_selection (c : List (String × String))
    (hne : c ≠ [])
    (hmeth : ∀ p ∈ c, p.1 ∈ priorityOrder)
    (hsingle : ∀ g ∈ lieuCounts c, g.2.length ≤ 1) :
    ∃ q, q ∈ c ∧ reconcileLieu c = some q.2 ∧
      ∀ p ∈ c, idxIn priorityOrder q.1 ≤ idxIn priorityOrder p.1 := by
  have hsel : selectValidated c = none := by
    apply findSome?_eq_none_of_all
    intro g hg
    have hle := hsingle g hg
    have h2 : ¬ 2 ≤ g.2.length := by omega
    simp [groupStep, h2]
  obtain ⟨p₀, hp₀⟩ := List.exists_mem_of_ne_nil c hne
  obtain ⟨mstar, hmstar⟩ :=
    find?_exists_of_mem (p := fun m => c.any fun p => p.1 == m) (hmeth p₀ hp₀)
      (List.any_eq_true.mpr ⟨p₀, hp₀, by simp⟩)
  have hmany := List.find?_some hmstar
  obtain ⟨q, hqc, hqm⟩ := List.any_eq_true.mp hmany
  obtain ⟨q', hq'⟩ := find?_exists_of_mem (p := fun p => p.1 == mstar) hqc hqm
  have hq'c : q' ∈ c := List.mem_of_find?_eq_some hq'
  have hq'm : q'.1 = mstar := by simpa using List.find?_some hq'
  refine ⟨q', hq'c, ?_, ?_⟩
  · unfold reconcileLieu
    rw [hsel]
    unfold selectByPriority
    rw [hmstar]
    show (c.find? (fun p => p.1 == mstar)).map Prod.snd = some q'.2
    rw [hq']
    rfl
  · intro p hp
    rw [hq'm]
    exact find?_idx_min hmstar (hmeth p hp) (List.any_eq_true.mpr ⟨p, hp, by simp⟩)

/-- Witness for C5: `metadata` (higher priority) beats `ollama_contenu`. -/
theorem reconcile_priority_selection_witness :
    ∃ q, q ∈ [("ollama_contenu", "Lyon"), ("metadata", "Paris")] ∧
      reconcileLieu [("ollama_contenu", "Lyon"), ("metadata", "Paris")] = some q.2 ∧
      ∀ p ∈ [("ollama_contenu", "Lyon"), ("metadata", "Paris")],
        idxIn priorityOrder q.1 ≤ idxIn priorityOrder p.1 :=
  reconcile_priority_selection [("ollama_contenu", "Lyon"), ("metadata", "Paris")]
    (by decide) (by decide) (by decide)

/-! ## Claims about the plausibility filter. -/

theorem pySplitWsAux_ne_nil (l acc : List Char) (hacc : acc ≠ []) :
    pySplitWsAux l acc ≠ [] := by
  induction l generalizing acc with
  | nil =>
    cases acc with
    | nil => exact absurd rfl hacc
    | cons a t => simp [pySplitWsAux]
  | cons c t ih =>
    cases acc with
    | nil => exact absurd rfl hacc
    | cons a ta =>
      by_cases hc : pyWsChar c = true
      · simp [pySplitWsAux, hc]
      · simpa [pySplitWsAux, hc] using ih (c :: a :: ta) (by simp)

theorem pySplitWsAux_nil_all_ws (l : List Char) (h : pySplitWsAux l [] = []) :
    ∀ c ∈ l, pyWsChar c = true := by
  induction l with
  | nil => intro c hc; cases hc
  | cons c t ih =>
    intro x hx
    by_cases hc : pyWsChar c = true
    · rcases List.mem_cons.mp hx with rfl | hxt
      · exact hc
      · exact ih (by simpa [pySplitWsAux, hc] using h) x hxt
    · exfalso
      have := pySplitWsAux_ne_nil t [c] (by simp)
      exact this (by simpa [pySplitWsAux, hc] using h)

theorem pyStrip_empty_of_split_nil {s : String} (h : pySplitWs s = []) :
    pyStrip s = "" := by
  have hws : ∀ c ∈ s.data, pyWsChar c = true := pySplitWsAux_nil_all_ws s.data h
  have hdrop : s.data.dropWhile pyWsChar = [] := by
    rw [List.dropWhile_eq_nil_iff]
    intro c hc
    exact hws c hc
  simp only [pyStrip, pyStripList, hdrop]
  rfl

/-- C10: `is_valid_location` rejects every candidate all of whose
whitespace-separated tokens have at most three characters: the
all-short-tokens rule (lines 1614-1619) fires before the short-country
whitelist of line 1663 can be reached, so such a candidate — in particular
a country name like `"UK"` or `"USA"` taken from the URL domain — is
discarded at the validity gate of `process_url` and never becomes a
location candidate. -/
theorem short_tokens_rejected (s : String)
    (h : ∀ w ∈ pySplitWs s, w.length ≤ 3) :
    isValidLocation s = false ∧ urlCandidateAdmitted s = false := by
  have hvalid : isValidLocation s = false := by
    unfold isValidLocation
    by_cases hgate : (s = "" ∨ (pyStrip s).length < 2)
    · simp [hgate]
    · have hfilter : (pySplitWs s).filter (fun w => 3 < w.length) = [] := by
        rw [List.filter_eq_nil_iff]
        intro w hw
        have := h w hw
        simp only [decide_eq_true_eq]
        omega
      have hne : pySplitWs s ≠ [] := by
        intro h0
        have := pyStrip_empty_of_split_nil h0
        apply hgate
        right
        rw [this]
        decide
      have hlen : 0 < (pySplitWs s).length := List.length_pos.mpr hne
      have hgate' : ¬ (s = "" ∨ (pyStrip s).length < 2) := hgate
      rw [if_neg (by simpa using hgate')]
      unfold isValidLocationCore
      simp [hfilter, hlen, ite_self]
  refine ⟨hvalid, ?_⟩
  unfold urlCandidateAdmitted
  rw [hvalid]
  simp

/-- Witness for C10 at the short country names named by the claim. -/
theorem short_tokens_rejected_witness :
    isValidLocation "UK" = false ∧ urlCandidateAdmitted "UK" = false ∧
      isValidLocation "USA" = false :=
  ⟨(short_tokens_rejected "UK" (by decide)).1,
   (short_tokens_rejected "UK" (by decide)).2,
   (short_tokens_rejected "USA" (by decide)).1⟩

/-! ## Claims about the translation lexicon. -/

/-- C3 (counterexample): translating the canonical French value of the key
`"australia"` is *not* a no-op: `"Australie"` is not itself a key, and the
partial-match fallback of `translate_location_to_french` hits the earlier
key `"us"` (a substring of `"australie"`), returning `"États-Unis"`. -/
theorem translate_roundtrip_cex :
    locationTranslation.find? (fun kv => kv.1 == "australia") =
        some ("australia", "Australie") ∧
      translateLocationToFrench "Australie" = "États-Unis" ∧
      ("États-Unis" : String) ≠ "Australie" :=
  ⟨rfl, rfl, by decide⟩

/-- C3 (amended): translating the canonical value again is a no-op for
every key of `LOCATION_TRANSLATION` *except* `"australia"`, `"russia"`
and `"south africa"`, whose values `"Australie"`, `"Russie"` and
`"Afrique du Sud"` are re-translated by the substring fallback (to
`"États-Unis"`, `"États-Unis"` and `"Afrique"` respectively). -/
theorem translate_roundtrip_amended :
    ∀ kv ∈ locationTranslation,
      kv.1 ∉ (["australia", "russia", "south africa"] : List String) →
        translateLocationToFrench kv.2 = kv.2 := by
  decide

/-- Witness for the amended C3 at the key `"usa"`. -/
theorem translate_roundtrip_amended_witness :
    translateLocationToFrench "États-Unis" = "États-Unis" :=
  translate_roundtrip_amended ("usa", "États-Unis") (by decide) (by decide)

/-! ## Claims about the normalizer. -/

/-- C6 (counterexample): location normalization is *not* idempotent.  With
no context, `normalize_location_name("Australia")` returns `"Australie"`
(a valid location), but normalizing `"Australie"` again returns
`"États-Unis"`: the final translation step re-translates the
already-canonical value through the substring fallback (`"us"` occurs in
`"australie"`).  On this path the code never calls the Pattern Matcher or
the LLM, so the stub oracles are never consulted. -/
theorem normalize_location_idempotent_cex :
    normalizeLocationName reextractNone cityOracleNone none none 0 "Australia" =
        "Australie" ∧
      normalizeLocationName reextractNone cityOracleNone none none 0 "Australie" =
        "États-Unis" ∧
      ("États-Unis" : String) ≠ "Australie" :=
  ⟨rfl, rfl, by decide⟩

/-- C6 (amended): on the counterexample input the normalization iteration
is *not* a fixed point after 2 passes; it stabilises only at the third
pass: `"Australia" ↦ "Australie" ↦ "États-Unis" ↦ "États-Unis"`. -/
theorem normalize_location_three_passes :
    normalizeLocationName reextractNone cityOracleNone none none 0 "Australia" =
        "Australie" ∧
      normalizeLocationName reextractNone cityOracleNone none none 0 "Australie" =
        "États-Unis" ∧
      normalizeLocationName reextractNone cityOracleNone none none 0 "États-Unis" =
        "États-Unis" :=
  ⟨rfl, rfl, rfl⟩

/-- An empty search text can never yield a contextual country: every
substring test against `""` fails. -/
theorem findPaysTrouve_empty (lieuClean : String) :
    findPaysTrouve "" lieuClean = none := rfl

/-- C8: when the stripped location value is itself a recognized country —
`c` being the first entry of `PAYS_CONNUS` matching it case-insensitively —
and the contextual country search finds a country `p` that disagrees with
`c` (case-insensitively), `enrich_location_with_country` keeps the
known-country form `c`, unless `p` is one of the lexicon-defined variants
of `c` in `variantes_pays`, in which case the normalized form of `p`
(translated to French) is returned.  This holds for every LLM oracle: the
oracle is never consulted on this path. -/
theorem enrich_keeps_known_country (cityOracle : String → Option String)
    (lieu : String) (contenu titre : Option String) (p c : String)
    (hne1 : lieu ≠ "") (hne2 : lieu ≠ "nan") (hne3 : pyStrip lieu ≠ "")
    (hnc : pyContains (pyStrip lieu) "," = false)
    (hfound : findPaysTrouve (buildTexteRecherche contenu titre) (pyStrip lieu) = some p)
    (hknown : paysConnus.find? (fun pc =>
        pyToLower (pyStrip lieu) == pyToLower pc || pyStrip lieu == pc) = some c)
    (hdiff : pyToLower p ≠ pyToLower c) :
    enrichLocationWithCountry cityOracle lieu contenu titre =
      if (((variantesPays.find? (fun kv => kv.1 == pyToLower c)).map Prod.snd).getD []).any
          (fun v => pyContains (pyToLower p) v) then
        translateLocationToFrench (lookupD variantNormalise (pyToLower p) c)
      else c := by
  have hcmem : c ∈ paysConnus := List.mem_of_find?_eq_some hknown
  have hcne : c ≠ "" := by
    have hall : ∀ x ∈ paysConnus, x ≠ "" := by decide
    exact hall c hcmem
  have hte : buildTexteRecherche contenu titre ≠ "" := by
    intro h0
    rw [h0, findPaysTrouve_empty] at hfound
    cases hfound
  simp only [enrichLocationWithCountry]
  rw [if_neg (by simp [hne1, hne2, hne3])]
  rw [if_neg (by simp [hnc])]
  rw [if_pos hte, hfound]
  rw [hknown]
  simp only []
  rw [if_neg (by simp [hdiff])]
  rw [if_pos hcne]

/-- Witness for C8: `"France"` with a context mentioning `"Pakistan"`
(a different, non-variant country) is kept as `"France"`. -/
theorem enrich_keeps_known_country_witness :
    enrichLocationWithCountry cityOracleNone "France"
        (some "An outbreak was reported in Pakistan yesterday.") none = "France" := by
  have h := enrich_keeps_known_country cityOracleNone "France"
    (some "An outbreak was reported in Pakistan yesterday.") none "Pakistan" "France"
    (by decide) (by decide) (by decide) (by decide) (by decide) (by decide) (by decide)
  rw [h]
  rfl

/-- C7: the candidate `"Rockland County"`, normalized with a content
context containing `"New York"` and `"USA"`, is enriched to the parent
country and translated: the result is `"États-Unis"`, not the county
string.  (The county string carries the USA indicator `"county"`, and the
context mentions `"USA"` in a geographic window, so the enrichment
replaces it with the translated country.) -/
theorem country_enrichment_rockland :
    pyContains "New York State officials confirmed avian influenza in the USA."
        "New York" = true ∧
      pyContains "New York State officials confirmed avian influenza in the USA."
        "USA" = true ∧
      normalizeLocationName reextractNone cityOracleNone
        (some "New York State officials confirmed avian influenza in the USA.")
        none 0 "Rockland County" = "États-Unis" :=
  ⟨rfl, rfl, rfl⟩

end NewsExtractor

namespace OllamaClient

/-! ## Claim about the LLM adapter call. -/

/-- C9: for every sequence of attempt outcomes and every configured model,
`call` makes at most two attempts, passes the fixed timeout of 30 seconds
to every attempt, sleeps exactly one second between consecutive attempts
(one fewer sleep than attempts), and returns a value rather than raising:
`None` unless some attempt within the bound succeeded, in which case the
stripped response of that attempt is returned. -/
theorem call_bounded_total (outcomes : Nat → AttemptOutcome) (model : Option String) :
    (call outcomes model).attemptTimeouts.length ≤ 2 ∧
      (∀ t ∈ (call outcomes model).attemptTimeouts, t = 30) ∧
      (call outcomes model).sleeps = (call outcomes model).attemptTimeouts.length - 1 ∧
      ((call outcomes model).result = none ∨
        ∃ i s, i < 2 ∧ outcomes i = .success s ∧
          (call outcomes model).result = some (NewsExtractor.pyStrip s)) := by
  unfold call
  by_cases hg : (!NewsExtractor.useOllama || !(NewsExtractor.pyTruthy model)) = true
  · rw [if_pos hg]
    refine ⟨by simp, by simp, by simp, Or.inl rfl⟩
  · rw [if_neg hg]
    cases h0 : outcomes 0 with
    | success r =>
      refine ⟨by simp [callLoop, h0], by simp [callLoop, h0], by simp [callLoop, h0], ?_⟩
      exact Or.inr ⟨0, r, by omega, h0, by simp [callLoop, h0]⟩
    | connectionError =>
      cases h1 : outcomes 1 with
      | success r =>
        refine ⟨by simp [callLoop, h0, h1], by simp [callLoop, h0, h1],
          by simp [callLoop, h0, h1], ?_⟩
        exact Or.inr ⟨1, r, by omega, h1, by simp [callLoop, h0, h1]⟩
      | connectionError =>
        exact ⟨by simp [callLoop, h0, h1], by simp [callLoop, h0, h1],
          by simp [callLoop, h0, h1], Or.inl (by simp [callLoop, h0, h1])⟩
      | timeoutError =>
        exact ⟨by simp [callLoop, h0, h1], by simp [callLoop, h0, h1],
          by simp [callLoop, h0, h1], Or.inl (by simp [callLoop, h0, h1])⟩
      | otherError =>
        exact ⟨by simp [callLoop, h0, h1], by simp [callLoop, h0, h1],
          by simp [callLoop, h0, h1], Or.inl (by simp [callLoop, h0, h1])⟩
    | timeoutError =>
      cases h1 : outcomes 1 with
      | success r =>
        refine ⟨by simp [callLoop, h0, h1], by simp [callLoop, h0, h1],
          by simp [callLoop, h0, h1], ?_⟩
        exact Or.inr ⟨1, r, by omega, h1, by simp [callLoop, h0, h1]⟩
      | connectionError =>
        exact ⟨by simp [callLoop, h0, h1], by simp [callLoop, h0, h1],
          by simp [callLoop, h0, h1], Or.inl (by simp [callLoop, h0, h1])⟩
      | timeoutError =>
        exact ⟨by simp [callLoop, h0, h1], by simp [callLoop, h0, h1],
          by simp [callLoop, h0, h1], Or.inl (by simp [callLoop, h0, h1])⟩
      | otherError =>
        exact ⟨by simp [callLoop, h0, h1], by simp [callLoop, h0, h1],
          by simp [callLoop, h0, h1], Or.inl (by simp [callLoop, h0, h1])⟩
    | otherError =>
      exact ⟨by simp [callLoop, h0], by simp [callLoop, h0],
        by simp [callLoop, h0], Or.inl (by simp [callLoop, h0])⟩

end OllamaClient
